import Mathlib

/-!
Shallow embedding of the `btr` device drivers (AVR `Usart` in
`src/avr/usart.cpp` and the inline typed wrappers of `I2C` in
`include/devices/i2c.hpp`).

Machine integers are modelled as `Nat` with explicit truncation where the
source narrows a value; the hardware registers touched by the driver
(UCSRnA/UCSRnB flags, UDR, SREG) are modelled as explicit state fields or
per-iteration environment inputs; bytes written to the hardware data
register are accumulated in a `sent` trace.  The busy-wait loops of
`send`/`flush`/`recv(buff,bytes,timeout)` are modelled with explicit fuel:
a result of `none` means the loop has not returned within `fuel`
iterations.  A hardware interrupt can preempt mainline code at any point;
the model commits to the schedule in which a pending interrupt fires at
the top of every busy-wait iteration (the handler entry points themselves
are modelled exactly once and shared between the asynchronous schedule and
the manual-pump fallback, as in the source).
-/

namespace Devices

/-- Modelled from the spec: `BTR_USART_NO_DATA` (defines.hpp is not part of
the sources given) — the distinguished all-ones-in-high-byte pattern that
signals "no data available". -/
def BTR_USART_NO_DATA : Nat := 0xFF00

/-- Modelled from the spec: `BTR_USART_OVERFLOW_ERR` (defines.hpp is not
part of the sources given) — the receive-overflow error flag, one of the
latched error bits living in bits 8–15 of a `recv` status. -/
def BTR_USART_OVERFLOW_ERR : Nat := 0x0100

/-- Modelled from the spec: `BTR_USART_TIMEDOUT_ERR` (defines.hpp is not
part of the sources given) — the timeout error flag, one of the error bits
living in bits 8–15 of a `recv` status. -/
def BTR_USART_TIMEDOUT_ERR : Nat := 0x0200

/-- Hardware status-register mask `(1 << FE) | (1 << DOR) | (1 << UPE)`
read by `Usart::onRecv` from UCSRnA: bits 4 (frame error), 3 (data
overrun) and 2 (parity error), i.e. `0x1c`. -/
def UCSRA_ERR_MASK : Nat := 0x1c

/-- State of one `btr::Usart` port.  The ring-buffer capacities
`BTR_USART_RX_BUFF_SIZE` / `BTR_USART_TX_BUFF_SIZE` are the lengths of
`rxBuff` / `txBuff` (the C arrays have exactly that static size).  The
four modelled UCSRnB control bits are `txen`, `rxen`, `rxcie`, `udrie`;
`ubrrH`, `ubrrL`, `ucsrc` are the configuration registers written by
`open()`.  `sent` is the trace of bytes written to the hardware data
register `*udr_`. -/
structure Usart where
  id : Nat
  ubrrH : Nat
  ubrrL : Nat
  ucsrc : Nat
  txen : Bool
  rxen : Bool
  rxcie : Bool
  udrie : Bool
  rxError : Nat
  rxHead : Nat
  rxTail : Nat
  txHead : Nat
  txTail : Nat
  rxBuff : List Nat
  txBuff : List Nat
  sent : List Nat
  deriving DecidableEq

/-- `Usart::onRecv` (usart.cpp lines 294–308): latch the hardware error
flags from UCSRnA, compute the next head slot; if the receive ring is not
full store the incoming byte `udr` at `rxHead` and advance `rxHead`,
otherwise drop the byte and or the overflow flag into the latch. -/
def Usart.onRecv (ucsra udr : Nat) (st : Usart) : Usart :=
  let n := st.rxBuff.length
  let err := ucsra &&& UCSRA_ERR_MASK
  let headNext := (st.rxHead + 1) % n
  if headNext ≠ st.rxTail then
    { st with rxError := err,
              rxBuff := st.rxBuff.set st.rxHead (udr % 256),
              rxHead := headNext }
  else
    { st with rxError := err ||| (BTR_USART_OVERFLOW_ERR >>> 8) }

/-- `Usart::onSend` (usart.cpp lines 310–323): read the byte at the
current `txTail`, advance `txTail`, write the byte to the hardware data
register (appended to the `sent` trace); if afterwards `txHead == txTail`
clear the UDRIE (transmit-buffer-empty interrupt enable) bit. -/
def Usart.onSend (st : Usart) : Usart :=
  let n := st.txBuff.length
  let ch := st.txBuff.getD st.txTail 0
  let tail := (st.txTail + 1) % n
  let st' := { st with txTail := tail, sent := st.sent ++ [ch] }
  if st'.txHead = st'.txTail then { st' with udrie := false } else st'

/-- `Usart::available` (usart.cpp lines 325–329):
`(BTR_USART_RX_BUFF_SIZE + rx_head_ - rx_tail_) % BTR_USART_RX_BUFF_SIZE`. -/
def Usart.available (st : Usart) : Nat :=
  let n := st.rxBuff.length
  (n + st.rxHead - st.rxTail) % n

/-- `Usart::recv()` (usart.cpp lines 417–428): non-blocking pop.  If the
receive ring is non-empty, read the byte at `rxTail`, advance `rxTail`,
return `(rx_error_ << 8) + ch` and clear the error latch; otherwise return
`BTR_USART_NO_DATA` and leave the state alone. -/
def Usart.recvOne (st : Usart) : Nat × Usart :=
  let n := st.rxBuff.length
  if st.rxHead ≠ st.rxTail then
    let ch := st.rxBuff.getD st.rxTail 0
    let rc := st.rxError <<< 8
    (rc + ch, { st with rxTail := (st.rxTail + 1) % n, rxError := 0 })
  else
    (BTR_USART_NO_DATA, st)

/-- `Usart::isOpen` (usart.cpp lines 233–236): TXEN or RXEN set. -/
def Usart.isOpen (st : Usart) : Bool :=
  st.txen || st.rxen

/-- `Usart::open` (usart.cpp lines 238–282).  The per-port baud/format
compile-time constants (`BAUD_CALC(BTR_USARTn_BAUD)` and
`BTR_USART_CONFIG(...)`, which come from build configuration headers not
among the sources given) are abstracted as a table `cfg` mapping the port
id to `some (baud, config)` for the ids handled by the switch and `none`
for the default branch, which returns `-1`.  If the port is already open
the call returns `0` at once with no register writes; otherwise the baud
and format registers are written and TXEN/RXEN/RXCIE are set, UDRIE
cleared. -/
def Usart.openPort (cfg : Nat → Option (Nat × Nat)) (st : Usart) : Int × Usart :=
  if st.isOpen then (0, st)
  else
    match cfg st.id with
    | none => (-1, st)
    | some (baud, config) =>
        (0, { st with ubrrH := (baud >>> 8) % 256,
                      ubrrL := baud % 256,
                      ucsrc := config % 256,
                      txen := true,
                      rxen := true,
                      rxcie := true,
                      udrie := false })

/-- Per-iteration snapshot of the hardware bits a busy-wait loop reads:
`sregI` is the global-interrupt-enable bit of SREG, `udre` the UCSRnA
transmit-data-register-empty bit, `txc` the UCSRnA transmit-complete
bit. -/
structure HwEnv where
  sregI : Bool
  udre : Bool
  txc : Bool
  deriving DecidableEq

/-- One asynchronous interrupt step: when global interrupts are enabled,
the UDRIE interrupt is enabled and the data register is empty, the
hardware invokes `onSend`; otherwise nothing happens.  This is the
schedule point inserted at the top of every modelled busy-wait
iteration. -/
def Usart.isrStep (e : HwEnv) (st : Usart) : Usart :=
  if e.sregI && st.udrie && e.udre then st.onSend else st

/-- `Usart::flush(DirectionType::OUT)` loop (usart.cpp lines 331–344):
`while (UDRIE set || TXC clear) { if (interrupts disabled && UDRIE set &&
UDRE set) onSend(); }`, with the asynchronous interrupt modelled at the
top of each iteration.  `none` means the loop has not finished within
`fuel` iterations. -/
def Usart.flushLoop (env : Nat → HwEnv) : Nat → Nat → Usart → Option Usart
  | 0, _, _ => none
  | fuel + 1, i, st =>
    let e := env i
    let st := st.isrStep e
    if st.udrie || !e.txc then
      let st := if !e.sregI && st.udrie && e.udre then st.onSend else st
      Usart.flushLoop env fuel (i + 1) st
    else
      some st

/-- `Usart::close` (usart.cpp lines 284–292): flush pending output first,
then clear TXEN/RXEN/RXCIE/UDRIE and set `rx_head_ = rx_tail_` (resetting
the receive ring to empty).  `none` when the flush loop does not finish
within `fuel` iterations. -/
def Usart.closePort (env : Nat → HwEnv) (fuel : Nat) (st : Usart) : Option Usart :=
  (st.flushLoop env fuel 0).map fun s =>
    { s with txen := false, rxen := false, rxcie := false, udrie := false,
             rxHead := s.rxTail }

/-- Outcome of the busy-wait loop of `Usart::send(char, bool, uint32_t)`:
either the loop exited with room available (`true`, together with the
iteration index reached and the current state) or the timeout bound was
hit (`false`). -/
def Usart.sendWait (env : Nat → HwEnv) (txDelay timeout headNext : Nat) :
    Nat → Nat → Nat → Usart → Option (Bool × Nat × Usart)
  | 0, _, _, _ => none
  | fuel + 1, i, delays, st =>
    let e := env i
    let st := st.isrStep e
    if headNext = st.txTail then
      if !e.sregI && e.udre then
        Usart.sendWait env txDelay timeout headNext fuel (i + 1) delays st.onSend
      else if 0 < timeout then
        let delays' := delays + txDelay
        if timeout ≤ delays' then some (false, i, st)
        else Usart.sendWait env txDelay timeout headNext fuel (i + 1) delays' st
      else
        Usart.sendWait env txDelay timeout headNext fuel (i + 1) delays st
    else
      some (true, i, st)

/-- `Usart::send(char ch, bool drain, uint32_t timeout)` (usart.cpp lines
346–382): compute `head_next = (tx_head_ + 1) % N`; while the ring is
full (`head_next == tx_tail_`), manually pump `onSend` whenever global
interrupts are disabled and UDRE is set, else accumulate
`BTR_USART_TX_DELAY`-millisecond delays and return `-1` once they reach a
non-zero `timeout`; when room exists store `ch` at slot `head_next`, set
`tx_head_ = head_next`, enable UDRIE, then flush when `drain` is true, and
return `0`.  `txDelay` abstracts the `BTR_USART_TX_DELAY` constant from
the configuration headers. -/
def Usart.sendCh (env : Nat → HwEnv) (txDelay fuel : Nat) (ch : Nat)
    (drain : Bool) (timeout : Nat) (st : Usart) : Option (Int × Usart) :=
  let headNext := (st.txHead + 1) % st.txBuff.length
  match st.sendWait env txDelay timeout headNext fuel 0 0 with
  | none => none
  | some (false, _, st') => some (-1, st')
  | some (true, i, st') =>
      let st2 := { st' with txBuff := st'.txBuff.set headNext (ch % 256),
                            txHead := headNext,
                            udrie := true }
      if drain then
        (st2.flushLoop (fun j => env (i + j)) fuel 0).map fun s => ((0 : Int), s)
      else
        some (0, st2)

/-- Loop body of `Usart::send(const char* buff, uint32_t bytes, bool
drain)` (usart.cpp lines 400–415): single-byte `send` with `drain =
false` for each byte in order, stopping at the first non-zero return
code. -/
def Usart.sendIter (env : Nat → HwEnv) (txDelay tmo fuel : Nat) :
    List Nat → Usart → Option (Int × Usart)
  | [], st => some (0, st)
  | c :: cs, st =>
    match st.sendCh env txDelay fuel c false tmo with
    | none => none
    | some (rc, st') =>
        if rc = 0 then Usart.sendIter env txDelay tmo fuel cs st'
        else some (rc, st')

/-- `Usart::send(const char* buff, uint32_t bytes, bool drain)` (usart.cpp
lines 400–415): send every byte of `data` with `drain = false`, stop at
the first failure, and when all bytes succeeded and `drain` is true flush
the transmit ring.  `tmo` abstracts the defaulted `timeout` argument of
the single-byte `send` (its default value lives in the header, which is
not among the sources given). -/
def Usart.sendBuf (env : Nat → HwEnv) (txDelay tmo fuel : Nat)
    (data : List Nat) (drain : Bool) (st : Usart) : Option (Int × Usart) :=
  match st.sendIter env txDelay tmo fuel data with
  | none => none
  | some (rc, st') =>
      if rc = 0 ∧ drain then
        (st'.flushLoop env fuel 0).map fun s => ((0 : Int), s)
      else
        some (rc, st')

/-- Loop of `Usart::recv(char* buff, uint16_t bytes, uint32_t timeout)`
(usart.cpp lines 430–455): while `bytes > 0`, pop with the non-blocking
`recv()`; on a no-data result, when `timeout > 0` accumulate
`BTR_USART_RX_DELAY`-millisecond delays and return `rc |
BTR_USART_TIMEDOUT_ERR` once they reach `timeout`, otherwise just retry;
on a data byte, or its high byte into `rc`, append the low byte to the
output buffer `acc` and decrement `bytes`.  Returns `rc` with the bytes
written once the count is satisfied; `none` when the loop has not
returned within `fuel` iterations.  `rxDelay` abstracts the
`BTR_USART_RX_DELAY` constant from the configuration headers. -/
def Usart.recvLoop (rxDelay timeout : Nat) :
    Nat → Nat → List Nat → Nat → Nat → Usart → Option (Nat × List Nat × Usart)
  | 0, _, _, _, _, _ => none
  | fuel + 1, bytes, acc, rc, delays, st =>
    if bytes = 0 then some (rc, acc, st)
    else
      let (ch, st') := st.recvOne
      if BTR_USART_NO_DATA &&& ch ≠ 0 then
        if 0 < timeout then
          let delays' := delays + rxDelay
          if timeout ≤ delays' then some (rc ||| BTR_USART_TIMEDOUT_ERR, acc, st')
          else Usart.recvLoop rxDelay timeout fuel bytes acc rc delays' st'
        else
          Usart.recvLoop rxDelay timeout fuel bytes acc rc delays st'
      else
        Usart.recvLoop rxDelay timeout fuel (bytes - 1) (acc ++ [ch % 256])
          (rc ||| (ch &&& 0xFF00)) delays st'

/-- `Usart::recv(char* buff, uint16_t bytes, uint32_t timeout)` entry
point: run `recvLoop` with an empty output buffer, `rc = 0` and zero
accumulated delay. -/
def Usart.recvBuf (rxDelay fuel bytes timeout : Nat) (st : Usart) :
    Option (Nat × List Nat × Usart) :=
  Usart.recvLoop rxDelay timeout fuel bytes [] 0 0 st

/-! The I2C typed wrappers (inline in `include/devices/i2c.hpp`).  The
byte-buffer operations `write(addr, reg, buff, count)` and `read(addr,
reg, buff, count)` they delegate to are implemented in platform files not
among the sources given, so they are abstracted as function parameters;
the `ValueCodec` helpers and `is_ok` come from headers that are likewise
not among the sources, and are modelled from the spec. -/

/-- Little-endian byte decomposition of a value: byte `i` of the list is
`(v >>> (8*i)) % 256`, i.e. the in-memory bytes of a `size`-byte integer
on a little-endian host. -/
def leBytes : Nat → Nat → List Nat
  | 0, _ => []
  | k + 1, v => (v % 256) :: leBytes k (v / 256)

/-- In-memory byte sequence of a `size`-byte integer holding value `v` on
a host whose endianness is given by `le`. -/
def hostBytes (le : Bool) (size v : Nat) : List Nat :=
  if le then leBytes size v else (leBytes size v).reverse

/-- Modelled from the spec: `is_ok` (defines.hpp is not part of the
sources given) — bits 16–31 of a status code are the status/error
classification, with zero meaning success. -/
def is_ok (rc : Nat) : Bool :=
  rc >>> 16 = 0

/-- Modelled from the spec: `ValueCodec::decodeFixedInt(buff, val, size,
true)` (value_codec.hpp is not part of the sources given) — decode a
fixed-width integer from its wire (most-significant-byte-first) bytes
with a single byte-order conversion. -/
def decodeFixedIntBE (bytes : List Nat) : Nat :=
  bytes.foldl (fun a b => a * 256 + b % 256) 0

/-- State of one `btr::I2C` device: the port identifier, the 8-byte
scratch buffer `buff_` and the `open_` flag. -/
structure I2CDev where
  dev_id : Nat
  buff : List Nat
  opened : Bool
  deriving DecidableEq

/-- `I2C::write<T>` (i2c.hpp lines 235–244): when `sizeof(T) > 1` and the
host is little-endian, `ValueCodec::swap` reverses the in-memory bytes of
the local copy of `value`; the copy's own bytes are then handed to the
byte-buffer `write(addr, reg, buff, sizeof(T))`, abstracted here as `wr`.
The result records the status returned by `wr`, the device state (which
the wrapper never touches) and, as a trace, the byte buffer passed to the
delegated call. -/
def I2CDev.writeT (wr : Nat → Nat → List Nat → Nat) (le : Bool)
    (size addr reg value : Nat) (dev : I2CDev) : Nat × I2CDev × List Nat :=
  let mem := hostBytes le size value
  let mem := if 1 < size ∧ le = true then mem.reverse else mem
  (wr addr reg mem, dev, mem)

/-- `I2C::read<T>` (i2c.hpp lines 224–233): delegate to the byte-buffer
`read(addr, reg, buff_, sizeof(T))` — abstracted as `rd`, which returns
the status together with the contents of the 8-byte scratch buffer after
the call — and, only when the status is OK, decode the value from the
scratch buffer; `val` is the prior contents of `*val`, returned unchanged
when decoding does not happen.  The result is `(status, val', scratch
state)`. -/
def I2CDev.readT (rd : Nat → Nat → Nat → Nat × List Nat) (size addr reg : Nat)
    (val : Nat) (dev : I2CDev) : Nat × Nat × I2CDev :=
  let r := rd addr reg size
  let dev' := { dev with buff := r.2 }
  if is_ok r.1 then
    (r.1, decodeFixedIntBE (r.2.take size), dev')
  else
    (r.1, val, dev')

/-! Concrete instances used by witnesses and counterexamples. -/

/-- Environment in which interrupts are enabled and the hardware is always
ready (UDRE and TXC set). -/
def envAll : Nat → HwEnv := fun _ => ⟨true, true, true⟩

/-- Environment in which global interrupts are disabled and the data
register never becomes empty: no transmit progress is possible. -/
def envStuck : Nat → HwEnv := fun _ => ⟨false, false, true⟩

/-- Environment in which global interrupts are disabled but the data
register is empty, so the manual pump can run. -/
def envPump : Nat → HwEnv := fun _ => ⟨false, true, true⟩

/-- A freshly opened port with 8-byte rings, both empty, all buffer slots
holding zero. -/
def ust8 : Usart :=
  { id := 1, ubrrH := 0, ubrrL := 0, ucsrc := 6,
    txen := true, rxen := true, rxcie := true, udrie := false,
    rxError := 0, rxHead := 0, rxTail := 0, txHead := 0, txTail := 0,
    rxBuff := List.replicate 8 0, txBuff := List.replicate 8 0, sent := [] }

/-- The ASCII bytes of `"hello"`. -/
def helloBytes : List Nat := [104, 101, 108, 108, 111]

/-- A port whose transmit ring is full: `(tx_head 7 + 1) % 8 = tx_tail 0`. -/
def ust8full : Usart :=
  { ust8 with txHead := 7, txTail := 0,
              txBuff := [10, 11, 12, 13, 14, 15, 16, 17], udrie := true }

/-- A port with one unread received byte (55 at slot 1) and a latched
error value of 5. -/
def ust8rx : Usart :=
  { ust8 with rxHead := 2, rxTail := 1,
              rxBuff := [0, 55, 0, 0, 0, 0, 0, 0], rxError := 5 }

/-- A port with unread receive data and pending transmit data. -/
def ust8pend : Usart :=
  { ust8 with rxHead := 3, udrie := true, txHead := 2,
              txBuff := [9, 8, 7, 6, 5, 4, 3, 2] }

/-- The state `ust8pend` reaches when closed under `envAll` (computed from
the model; `getD` only strips the `some`). -/
def ust8pendClosed : Usart :=
  (Usart.closePort envAll 12 ust8pend).getD ust8

/-- A closed port (no enable bits set). -/
def ust8closed : Usart :=
  { ust8 with txen := false, rxen := false, rxcie := false }

/-- A configuration table handling only port id 1, as the build enabling a
single USART does. -/
def cfg0 : Nat → Option (Nat × Nat) := fun i => if i = 1 then some (103, 6) else none

/-- A fresh I2C device with an all-zero scratch buffer. -/
def i2cDev0 : I2CDev := ⟨0, List.replicate 8 0, true⟩

/-- A byte-buffer write that always reports success. -/
def wrOk : Nat → Nat → List Nat → Nat := fun _ _ _ => 0

/-- A byte-buffer read that fails with a non-OK status (classification
3 in bits 16–31) after having clobbered the scratch buffer. -/
def rdErr : Nat → Nat → Nat → Nat × List Nat :=
  fun _ _ _ => (0x30000, [1, 2, 3, 4, 5, 6, 7, 8])

/-- A byte-buffer read that succeeds and fills the scratch buffer with
the bytes 1..8. -/
def rdOk : Nat → Nat → Nat → Nat × List Nat :=
  fun _ _ _ => (0, [1, 2, 3, 4, 5, 6, 7, 8])

/-! Theorems.  One theorem per claim of the specification, with helper
lemmas shared between them. -/

/-- Reading a masked byte: a conjunction with the low 8 bits. -/
theorem nat_and_255_eq_mod (x : Nat) : x &&& 255 = x % 256 := by
  have h : (255 : Nat) = 2 ^ 8 - 1 := by norm_num
  rw [h, Nat.and_pow_two_sub_one_eq_mod]

/-- C4.  For every state of the receive ring with capacity `N`: when
`Usart::onRecv` fires and the ring is full (`(rx_head + 1) % N ==
rx_tail`), the incoming byte is dropped (the buffer is unchanged), the
overflow error flag is set in the error latch, and `rx_head` and
`rx_tail` are unchanged; when it is not full, the byte is stored at
`rx_head` and `rx_head` advances by `1 mod N`; in both cases `rx_head`
and `rx_tail` remain in `[0, N)` and no slot other than the one at
`rx_head` is written. -/
theorem onRecv_ring_invariants (ucsra udr : Nat) (st : Usart)
    (hh : st.rxHead < st.rxBuff.length) (ht : st.rxTail < st.rxBuff.length) :
    (st.onRecv ucsra udr).rxHead < st.rxBuff.length ∧
    (st.onRecv ucsra udr).rxTail < st.rxBuff.length ∧
    (∀ j, j ≠ st.rxHead →
       (st.onRecv ucsra udr).rxBuff.getD j 0 = st.rxBuff.getD j 0) ∧
    ((st.rxHead + 1) % st.rxBuff.length = st.rxTail →
       (st.onRecv ucsra udr).rxHead = st.rxHead ∧
       (st.onRecv ucsra udr).rxTail = st.rxTail ∧
       (st.onRecv ucsra udr).rxBuff = st.rxBuff ∧
       (st.onRecv ucsra udr).rxError &&& (BTR_USART_OVERFLOW_ERR >>> 8) = 1) ∧
    ((st.rxHead + 1) % st.rxBuff.length ≠ st.rxTail →
       (st.onRecv ucsra udr).rxBuff.getD st.rxHead 0 = udr % 256 ∧
       (st.onRecv ucsra udr).rxHead = (st.rxHead + 1) % st.rxBuff.length ∧
       (st.onRecv ucsra udr).rxTail = st.rxTail) := by
  have hn : 0 < st.rxBuff.length := Nat.lt_of_le_of_lt (Nat.zero_le st.rxHead) hh
  by_cases hfull : (st.rxHead + 1) % st.rxBuff.length = st.rxTail
  · have hst : st.onRecv ucsra udr =
        { st with rxError := (ucsra &&& UCSRA_ERR_MASK) ||| (BTR_USART_OVERFLOW_ERR >>> 8) } := by
      simp [Usart.onRecv, hfull]
    rw [hst]
    refine ⟨hh, ht, fun j _ => rfl, fun _ => ⟨rfl, rfl, rfl, ?_⟩, fun h => absurd hfull h⟩
    have hov : BTR_USART_OVERFLOW_ERR >>> 8 = 1 := by decide
    rw [hov]
    simp [Nat.and_one_is_mod]
  · have hst : st.onRecv ucsra udr =
        { st with rxError := ucsra &&& UCSRA_ERR_MASK,
                  rxBuff := st.rxBuff.set st.rxHead (udr % 256),
                  rxHead := (st.rxHead + 1) % st.rxBuff.length } := by
      simp [Usart.onRecv, hfull]
    rw [hst]
    refine ⟨Nat.mod_lt _ hn, ht, ?_, fun h => absurd h hfull, fun _ => ⟨?_, rfl, rfl⟩⟩
    · intro j hj
      show (st.rxBuff.set st.rxHead (udr % 256)).getD j 0 = st.rxBuff.getD j 0
      simp [List.getD, List.getElem?_set_ne (fun h => hj h.symm)]
    · show (st.rxBuff.set st.rxHead (udr % 256)).getD st.rxHead 0 = udr % 256
      simp [List.getD, List.getElem?_set_self, hh]

/-- C4 witness: at a concrete non-full ring, `onRecv` keeps `rx_head`
inside the ring and stores the incoming byte at the old head slot. -/
theorem onRecv_ring_invariants_witness :
    (Usart.onRecv 255 77 ust8rx).rxHead < ust8rx.rxBuff.length ∧
    (Usart.onRecv 255 77 ust8rx).rxBuff.getD 2 0 = 77 :=
  ⟨(onRecv_ring_invariants 255 77 ust8rx (by decide) (by decide)).1,
   ((onRecv_ring_invariants 255 77 ust8rx (by decide) (by decide)).2.2.2.2
      (by decide)).1⟩

/-- C5.  `Usart::recv()` with an empty receive ring (`rx_head ==
rx_tail`) returns the distinguished no-data pattern `0xFF00` (all ones in
the high byte) without modifying the ring or the error latch; with a
non-empty ring it returns the byte popped from the tail slot in bits 0–7
merged with the latched error flags in bits 8–15, advances `rx_tail` by
`1 mod N`, and clears the error latch to `0`. -/
theorem recv_nonblocking_spec (st : Usart)
    (herr : st.rxError < 256) (hbyte : st.rxBuff.getD st.rxTail 0 < 256) :
    (st.rxHead = st.rxTail → st.recvOne = (BTR_USART_NO_DATA, st)) ∧
    (st.rxHead ≠ st.rxTail →
       st.recvOne.1 &&& 255 = st.rxBuff.getD st.rxTail 0 ∧
       st.recvOne.1 >>> 8 = st.rxError ∧
       st.recvOne.2.rxTail = (st.rxTail + 1) % st.rxBuff.length ∧
       st.recvOne.2.rxError = 0 ∧
       st.recvOne.2.rxHead = st.rxHead ∧
       st.recvOne.2.rxBuff = st.rxBuff) := by
  constructor
  · intro hempty
    simp [Usart.recvOne, hempty]
  · intro hne
    have hd : st.recvOne =
        (st.rxError <<< 8 + st.rxBuff.getD st.rxTail 0,
         { st with rxTail := (st.rxTail + 1) % st.rxBuff.length, rxError := 0 }) := by
      simp [Usart.recvOne, hne]
    rw [hd]
    have hsh : st.rxError <<< 8 = st.rxError * 256 := by
      rw [Nat.shiftLeft_eq]
    have hb : st.rxBuff[st.rxTail]?.getD 0 < 256 := by
      simpa [List.getD] using hbyte
    refine ⟨?_, ?_, rfl, rfl, rfl, rfl⟩
    · rw [nat_and_255_eq_mod, hsh]
      omega
    · rw [Nat.shiftRight_eq_div_pow, hsh]
      omega

/-- C5 witness: a port with latched error `5` and byte `55` at the tail
slot returns `5` in the high byte and `55` in the low byte and clears the
latch. -/
theorem recv_nonblocking_spec_witness :
    ust8rx.recvOne.1 &&& 255 = 55 ∧ ust8rx.recvOne.1 >>> 8 = 5 ∧
    ust8rx.recvOne.2.rxError = 0 :=
  ⟨((recv_nonblocking_spec ust8rx (by decide) (by decide)).2 (by decide)).1,
   ((recv_nonblocking_spec ust8rx (by decide) (by decide)).2 (by decide)).2.1,
   ((recv_nonblocking_spec ust8rx (by decide) (by decide)).2 (by decide)).2.2.2.1⟩

/-- C10.  Under the precondition that the transmit ring is non-empty
(`tx_head != tx_tail`), `Usart::onSend` removes exactly one byte: it
writes the byte at the current `tx_tail` to the hardware data register,
advances `tx_tail` by `1 mod N` keeping it in `[0, N)`, leaves
`tx_head` and the buffer contents alone, and clears the UDRIE
(transmit-empty interrupt enable) bit exactly when the ring becomes empty
as a result — it performs no emptiness check of its own. -/
theorem onSend_pop_spec (st : Usart)
    (hne : st.txHead ≠ st.txTail) (ht : st.txTail < st.txBuff.length) :
    st.onSend.txTail = (st.txTail + 1) % st.txBuff.length ∧
    st.onSend.txTail < st.txBuff.length ∧
    st.onSend.sent = st.sent ++ [st.txBuff.getD st.txTail 0] ∧
    st.onSend.txHead = st.txHead ∧
    st.onSend.txBuff = st.txBuff ∧
    (st.txHead = (st.txTail + 1) % st.txBuff.length → st.onSend.udrie = false) ∧
    (st.txHead ≠ (st.txTail + 1) % st.txBuff.length → st.onSend.udrie = st.udrie) := by
  have hn : 0 < st.txBuff.length := Nat.lt_of_le_of_lt (Nat.zero_le st.txTail) ht
  by_cases hem : st.txHead = (st.txTail + 1) % st.txBuff.length
  · have hst : st.onSend =
        { st with txTail := (st.txTail + 1) % st.txBuff.length,
                  sent := st.sent ++ [st.txBuff.getD st.txTail 0],
                  udrie := false } := by
      simp [Usart.onSend, ← hem]
    rw [hst]
    exact ⟨rfl, Nat.mod_lt _ hn, rfl, rfl, rfl, fun _ => rfl, fun h => absurd hem h⟩
  · have hst : st.onSend =
        { st with txTail := (st.txTail + 1) % st.txBuff.length,
                  sent := st.sent ++ [st.txBuff.getD st.txTail 0] } := by
      simp [Usart.onSend]
      omega
    rw [hst]
    exact ⟨rfl, Nat.mod_lt _ hn, rfl, rfl, rfl, fun h => absurd h hem, fun _ => rfl⟩

/-- C10 witness: at a concrete full ring with UDRIE enabled, `onSend`
pops the byte at slot 0 and keeps UDRIE enabled because the ring is still
non-empty. -/
theorem onSend_pop_spec_witness :
    ust8full.onSend.txTail = 1 ∧
    ust8full.onSend.sent = [10] ∧
    ust8full.onSend.udrie = ust8full.udrie :=
  ⟨(onSend_pop_spec ust8full (by decide) (by decide)).1,
   (onSend_pop_spec ust8full (by decide) (by decide)).2.2.1,
   (onSend_pop_spec ust8full (by decide) (by decide)).2.2.2.2.2.2 (by decide)⟩

/-- C7.  `Usart::open()` is idempotent: when a call to `open()` returns
success `0`, a second call without an intervening `close()` returns `0`
and performs no register writes, leaving the whole port state exactly as
established by the first call (it returns early because `isOpen()` is
already true). -/
theorem open_idempotent (cfg : Nat → Option (Nat × Nat)) (st st1 : Usart)
    (rc : Int) (h : st.openPort cfg = (rc, st1)) (hrc : rc = 0) :
    st1.openPort cfg = (0, st1) := by
  subst hrc
  have hopen1 : st1.isOpen := by
    unfold Usart.openPort at h
    by_cases hop : st.isOpen
    · rw [if_pos hop] at h
      have h2 : st = st1 := congrArg Prod.snd h
      rw [← h2]
      exact hop
    · rw [if_neg hop] at h
      rcases hcfg : cfg st.id with - | ⟨baud, config⟩
      · rw [hcfg] at h
        have h1 : (-1 : Int) = 0 := congrArg Prod.fst h
        exact absurd h1 (by norm_num)
      · rw [hcfg] at h
        have h2 : { st with ubrrH := (baud >>> 8) % 256,
                            ubrrL := baud % 256,
                            ucsrc := config % 256,
                            txen := true,
                            rxen := true,
                            rxcie := true,
                            udrie := false } = st1 :=
          congrArg Prod.snd h
        rw [← h2]
        simp [Usart.isOpen]
  unfold Usart.openPort
  rw [if_pos hopen1]

/-- C7 witness: opening a closed port with the single-port configuration
table succeeds, and a second `open()` returns `0` with the state
unchanged. -/
theorem open_idempotent_witness :
    (ust8closed.openPort cfg0).2.openPort cfg0 = (0, (ust8closed.openPort cfg0).2) :=
  open_idempotent cfg0 ust8closed (ust8closed.openPort cfg0).2
    (ust8closed.openPort cfg0).1 (by decide) (by decide)

/-- The little-endian byte decomposition has exactly `size` bytes. -/
theorem leBytes_length (size v : Nat) : (leBytes size v).length = size := by
  induction size generalizing v with
  | zero => rfl
  | succ k ih => simp [leBytes, ih]

/-- Decoding the reversed little-endian bytes (that is, the big-endian
wire image) of a value recovers the value modulo `256 ^ size`. -/
theorem decodeFixedIntBE_leBytes_reverse (size v : Nat) :
    decodeFixedIntBE ((leBytes size v).reverse) = v % 256 ^ size := by
  induction size generalizing v with
  | zero => simp [leBytes, decodeFixedIntBE, Nat.mod_one]
  | succ k ih =>
    have h1 : (leBytes (k + 1) v).reverse =
        (leBytes k (v / 256)).reverse ++ [v % 256] := by
      simp [leBytes]
    unfold decodeFixedIntBE
    rw [h1, List.foldl_append]
    have h2 := ih (v / 256)
    unfold decodeFixedIntBE at h2
    rw [h2]
    show v / 256 % 256 ^ k * 256 + v % 256 % 256 = v % 256 ^ (k + 1)
    rw [pow_succ', Nat.mod_mul]
    omega

/-- The buffer `I2C::write<T>` hands to the byte-buffer write is the
big-endian image of the value, for either host endianness. -/
theorem writeT_wire (wr : Nat → Nat → List Nat → Nat) (le : Bool)
    (size addr reg value : Nat) (dev : I2CDev) :
    (dev.writeT wr le size addr reg value).2.2 = (leBytes size value).reverse := by
  cases le with
  | false => simp [I2CDev.writeT, hostBytes]
  | true =>
    by_cases hs : 1 < size
    · simp [I2CDev.writeT, hostBytes, hs]
    · have hsz : size = 0 ∨ size = 1 := by omega
      rcases hsz with h | h <;> subst h <;>
        simp [I2CDev.writeT, hostBytes, leBytes, hs]

/-- C6.  `Usart::close()` first flushes pending output (the returned
state is obtained from a completed flush of the transmit ring), then
disables the transmit/receive enable and interrupt-enable bits, and
resets the receive ring to empty: whenever `close()` returns, the
enable bits TXEN/RXEN/RXCIE/UDRIE are all clear, `rx_head == rx_tail`,
and `available()` returns `0`, so bytes received but not yet read are
discarded. -/
theorem close_spec (env : Nat → HwEnv) (fuel : Nat) (st st' : Usart)
    (h : st.closePort env fuel = some st') :
    (∃ sm, st.flushLoop env fuel 0 = some sm ∧
       st' = { sm with txen := false, rxen := false, rxcie := false,
                       udrie := false, rxHead := sm.rxTail }) ∧
    st'.txen = false ∧ st'.rxen = false ∧ st'.rxcie = false ∧
    st'.udrie = false ∧ st'.rxHead = st'.rxTail ∧ st'.available = 0 := by
  unfold Usart.closePort at h
  rcases hf : st.flushLoop env fuel 0 with - | sm
  · rw [hf] at h
    exact absurd h (by simp)
  · rw [hf] at h
    simp only [Option.map_some' ] at h
    injection h with h
    refine ⟨⟨sm, rfl, h.symm⟩, ?_⟩
    rw [← h]
    refine ⟨rfl, rfl, rfl, rfl, rfl, ?_⟩
    show (sm.rxBuff.length + sm.rxTail - sm.rxTail) % sm.rxBuff.length = 0
    rw [Nat.add_sub_cancel, Nat.mod_self]

/-- C6 witness: closing a concrete port with unread receive data and
pending transmit data drains the transmit ring and leaves `available() =
0` with all enable bits clear. -/
theorem close_spec_witness :
    ust8pendClosed.available = 0 ∧ ust8pendClosed.txen = false ∧
    ust8pendClosed.rxHead = ust8pendClosed.rxTail :=
  ⟨(close_spec envAll 12 ust8pend ust8pendClosed (by decide)).2.2.2.2.2.2,
   (close_spec envAll 12 ust8pend ust8pendClosed (by decide)).2.1,
   (close_spec envAll 12 ust8pend ust8pendClosed (by decide)).2.2.2.2.2.1⟩

/-- C9.  For every width `size` of a fixed-width integer type `T`,
`I2C::read<T>(addr, reg, val)` writes through `val` only when the
underlying buffer read reports an OK status: on an error status it
returns that status unchanged and leaves `*val` untouched, and on an OK
status it stores the value decoded from the scratch buffer. -/
theorem readT_frame_condition (rd : Nat → Nat → Nat → Nat × List Nat)
    (size addr reg val : Nat) (dev : I2CDev) :
    (is_ok (rd addr reg size).1 = false →
       (dev.readT rd size addr reg val).1 = (rd addr reg size).1 ∧
       (dev.readT rd size addr reg val).2.1 = val) ∧
    (is_ok (rd addr reg size).1 = true →
       (dev.readT rd size addr reg val).2.1 =
         decodeFixedIntBE ((rd addr reg size).2.take size)) := by
  constructor
  · intro herr
    simp [I2CDev.readT, herr]
  · intro hok
    simp [I2CDev.readT, hok]

/-- C9 witness: a failing read (status classification 3) leaves the
output value `42` untouched and propagates the status; a succeeding read
decodes the scratch bytes `[1, 2]` into `258`. -/
theorem readT_frame_condition_witness :
    (i2cDev0.readT rdErr 2 80 0 42).2.1 = 42 ∧
    (i2cDev0.readT rdErr 2 80 0 42).1 = 0x30000 ∧
    (i2cDev0.readT rdOk 2 80 0 42).2.1 = 258 := by
  refine ⟨((readT_frame_condition rdErr 2 80 0 42 i2cDev0).1 (by decide)).2,
          ((readT_frame_condition rdErr 2 80 0 42 i2cDev0).1 (by decide)).1,
          ?_⟩
  have h := (readT_frame_condition rdOk 2 80 0 42 i2cDev0).2 (by decide)
  rw [h]
  decide

/-- C8 counterexample.  The claim states that `I2C::write<T>` stages the
value through the device's 8-byte scratch buffer before delegating; on a
little-endian host, `write<uint16_t>(0x50, 0, 258)` would then leave the
wire image `[1, 2]` of `258` in the first two scratch bytes, but the
wrapper converts a local copy of the value in place and never touches the
scratch buffer, which still holds its prior zeroes after the call. -/
theorem writeT_scratch_counterexample :
    ¬ ((i2cDev0.writeT wrOk true 2 80 0 258).2.1.buff.take 2 = [1, 2]) := by
  decide

/-- C8 (amended).  `I2C::write<T>(addr, reg, value)` converts the value
to wire byte order exactly once — the buffer handed to `write(addr, reg,
buff, sizeof(T))` is the big-endian image of the value regardless of host
endianness, obtained by swapping exactly when the host is little-endian
and `sizeof(T) > 1` — and passes the converted local copy's own bytes,
leaving the device state (including the scratch buffer) unchanged;
`I2C::read<T>(addr, reg, val)` delegates to `read(addr, reg, scratch,
sizeof(T))` and decodes its result from the scratch buffer with a single
byte-order conversion. -/
theorem typed_wrappers_wire_conversion (wr : Nat → Nat → List Nat → Nat)
    (rd : Nat → Nat → Nat → Nat × List Nat) (le : Bool)
    (size addr reg value val : Nat) (dev : I2CDev) :
    (dev.writeT wr le size addr reg value).2.1 = dev ∧
    (dev.writeT wr le size addr reg value).2.2 = (leBytes size value).reverse ∧
    (dev.writeT wr le size addr reg value).2.2.length = size ∧
    (dev.writeT wr le size addr reg value).1 =
      wr addr reg ((leBytes size value).reverse) ∧
    decodeFixedIntBE (dev.writeT wr le size addr reg value).2.2 =
      value % 256 ^ size ∧
    (dev.readT rd size addr reg val).2.2.buff = (rd addr reg size).2 ∧
    (is_ok (rd addr reg size).1 = true →
       (dev.readT rd size addr reg val).2.1 =
         decodeFixedIntBE ((dev.readT rd size addr reg val).2.2.buff.take size)) := by
  have hwire : (dev.writeT wr le size addr reg value).2.2 =
      (leBytes size value).reverse := writeT_wire wr le size addr reg value dev
  have hlen : (leBytes size value).length = size := leBytes_length size value
  refine ⟨rfl, hwire, ?_, ?_, ?_, ?_, ?_⟩
  · rw [hwire, List.length_reverse, hlen]
  · show wr addr reg (dev.writeT wr le size addr reg value).2.2 = _
    rw [hwire]
  · rw [hwire, decodeFixedIntBE_leBytes_reverse]
  · simp only [I2CDev.readT]
    split <;> rfl
  · intro hok
    simp [I2CDev.readT, hok]

/-- The non-blocking pop on an empty receive ring returns the no-data
pattern and leaves the state untouched. -/
theorem recvOne_empty (st : Usart) (h : st.rxHead = st.rxTail) :
    st.recvOne = (BTR_USART_NO_DATA, st) := by
  simp [Usart.recvOne, h]

/-- While the receive ring stays empty and `timeout = 0`, the
`recv(buff, bytes, timeout)` loop never returns, whatever the fuel. -/
theorem recvLoop_empty_timeout0 (st : Usart) (bytes rxDelay : Nat) (acc : List Nat) (rc delays : Nat)
    (hemp : st.rxHead = st.rxTail) (hbytes : bytes ≠ 0) :
    ∀ fuel, Usart.recvLoop rxDelay 0 fuel bytes acc rc delays st = none := by
  have hnd : BTR_USART_NO_DATA ≠ 0 := by decide
  intro fuel
  induction fuel with
  | zero => rfl
  | succ f ih =>
    have hstep : Usart.recvLoop rxDelay 0 (f + 1) bytes acc rc delays st =
        Usart.recvLoop rxDelay 0 f bytes acc rc delays st := by
      simp [Usart.recvLoop, hbytes, recvOne_empty st hemp, hnd]
    rw [hstep, ih]

/-- While the receive ring stays empty and `timeout > 0`, the
`recv(buff, bytes, timeout)` loop returns the accumulated status with the
timeout bit set, leaving the output buffer and state as they are, as soon
as the accumulated delays reach the bound. -/
theorem recvLoop_empty_timeout (st : Usart) (bytes timeout rxDelay : Nat) (acc : List Nat) (rc : Nat)
    (hemp : st.rxHead = st.rxTail) (hbytes : bytes ≠ 0) (htpos : 0 < timeout) :
    ∀ fuel delays, delays < timeout → timeout ≤ delays + fuel * rxDelay →
      Usart.recvLoop rxDelay timeout fuel bytes acc rc delays st =
        some (rc ||| BTR_USART_TIMEDOUT_ERR, acc, st) := by
  have hnd : BTR_USART_NO_DATA ≠ 0 := by decide
  intro fuel
  induction fuel with
  | zero =>
    intro delays h1 h2
    exfalso
    omega
  | succ f ih =>
    intro delays h1 h2
    rw [Nat.succ_mul] at h2
    by_cases hdone : timeout ≤ delays + rxDelay
    · simp [Usart.recvLoop, hbytes, recvOne_empty st hemp, hnd, htpos, hdone]
    · have hstep : Usart.recvLoop rxDelay timeout (f + 1) bytes acc rc delays st =
          Usart.recvLoop rxDelay timeout f bytes acc rc (delays + rxDelay) st := by
        simp [Usart.recvLoop, hbytes, recvOne_empty st hemp, hnd, htpos, hdone]
      rw [hstep]
      exact ih (delays + rxDelay) (by omega) (by omega)

/-- C2 counterexample.  The claim states that `recv(buffer, bytes,
timeout)` called with `timeout = 0` and an empty receive ring returns
immediately with a no-data status; on the code, the no-data path with
`timeout = 0` skips the delay accounting entirely and retries, so the
call has still not returned after 50 loop iterations (and, by
`recv_buf_timeout_semantics`, never returns). -/
theorem recv_timeout0_counterexample :
    Usart.recvBuf 1 50 1 0 ust8 = none := by
  decide

/-- C2 (amended).  `Usart::recv(buffer, bytes, timeout)` with
`timeout = 0` and an empty receive ring never returns (it busy-waits
indefinitely, `timeout = 0` meaning an unbounded wait exactly as in
`send`), leaving no status to report; with `timeout > 0` and the ring
remaining empty, once the accumulated waiting reaches the bound before
the requested count completes it returns a status with the timeout-error
bit set, leaving any partial data already written to the buffer in
place. -/
theorem recv_buf_timeout_semantics :
    (∀ st bytes rxDelay fuel, st.rxHead = st.rxTail → bytes ≠ 0 →
       Usart.recvBuf rxDelay fuel bytes 0 st = none) ∧
    (∀ st bytes timeout rxDelay acc rc delays fuel,
       st.rxHead = st.rxTail → bytes ≠ 0 → 0 < timeout →
       delays < timeout → timeout ≤ delays + fuel * rxDelay →
       Usart.recvLoop rxDelay timeout fuel bytes acc rc delays st =
         some (rc ||| BTR_USART_TIMEDOUT_ERR, acc, st)) := by
  constructor
  · intro st bytes rxDelay fuel hemp hbytes
    exact recvLoop_empty_timeout0 st bytes rxDelay [] 0 0 hemp hbytes fuel
  · intro st bytes timeout rxDelay acc rc delays fuel hemp hbytes htpos h1 h2
    exact recvLoop_empty_timeout st bytes timeout rxDelay acc rc hemp hbytes htpos
      fuel delays h1 h2

/-- C2 witness: on a fresh empty port, a 1-byte `recv` with `timeout = 0`
is still looping after 80 iterations, and a 3-byte `recv` mid-loop with
one byte already delivered (`acc = [55]`, `rc = 0x400`) times out with
the timeout bit merged in and the partial data kept. -/
theorem recv_buf_timeout_semantics_witness :
    Usart.recvBuf 1 80 1 0 ust8 = none ∧
    Usart.recvLoop 2 7 100 3 [55] 1024 0 ust8 =
      some (1024 ||| BTR_USART_TIMEDOUT_ERR, [55], ust8) :=
  ⟨recv_buf_timeout_semantics.1 ust8 1 1 80 (by decide) (by decide),
   recv_buf_timeout_semantics.2 ust8 3 7 2 [55] 1024 0 100 (by decide) (by decide)
     (by decide) (by decide) (by norm_num)⟩

/-- `onSend` never changes the transmit buffer contents. -/
theorem onSend_txBuff (st : Usart) : st.onSend.txBuff = st.txBuff := by
  simp only [Usart.onSend]
  split <;> rfl

/-- With the data register never empty, neither the asynchronous
interrupt nor the manual pump can run, so a full transmit ring stays
full and the `send` busy-wait loop with `timeout > 0` ends by reporting
the timeout once the accumulated delays reach the bound. -/
theorem sendWait_stuck (env : Nat → HwEnv) (txDelay timeout headNext : Nat)
    (st : Usart) (hu : ∀ j, (env j).udre = false)
    (hfull : headNext = st.txTail) (htpos : 0 < timeout) :
    ∀ fuel i delays, delays < timeout → timeout ≤ delays + fuel * txDelay →
      ∃ k, st.sendWait env txDelay timeout headNext fuel i delays =
        some (false, k, st) := by
  intro fuel
  induction fuel with
  | zero =>
    intro i delays h1 h2
    exfalso
    omega
  | succ f ih =>
    intro i delays h1 h2
    rw [Nat.succ_mul] at h2
    by_cases hdone : timeout ≤ delays + txDelay
    · refine ⟨i, ?_⟩
      simp [Usart.sendWait, Usart.isrStep, hu i, hfull, htpos, hdone]
    · have hstep : st.sendWait env txDelay timeout headNext (f + 1) i delays =
          st.sendWait env txDelay timeout headNext f (i + 1) (delays + txDelay) := by
        simp [Usart.sendWait, Usart.isrStep, hu i, hfull, htpos, hdone]
      rw [hstep]
      exact ih (i + 1) (delays + txDelay) (by omega) (by omega)

/-- With the data register never empty and `timeout = 0`, the `send`
busy-wait loop on a full transmit ring never returns. -/
theorem sendWait_stuck_zero (env : Nat → HwEnv) (txDelay headNext : Nat)
    (st : Usart) (hu : ∀ j, (env j).udre = false)
    (hfull : headNext = st.txTail) :
    ∀ fuel i delays,
      st.sendWait env txDelay 0 headNext fuel i delays = none := by
  intro fuel
  induction fuel with
  | zero => intro i delays; rfl
  | succ f ih =>
    intro i delays
    have hstep : st.sendWait env txDelay 0 headNext (f + 1) i delays =
        st.sendWait env txDelay 0 headNext f (i + 1) delays := by
      simp [Usart.sendWait, Usart.isrStep, hu i, hfull]
    rw [hstep, ih]

/-- With interrupts disabled and the data register empty on the first
iteration, the `send` busy-wait loop on a full transmit ring manually
invokes `onSend` once, which frees a slot and lets the loop exit. -/
theorem sendWait_pump (env : Nat → HwEnv) (txDelay timeout headNext fuel : Nat)
    (st : Usart) (hs : ∀ j, (env j).sregI = false)
    (hu0 : (env 0).udre = true) (hfull : headNext = st.txTail)
    (ht : st.txTail < st.txBuff.length) (hn : 2 ≤ st.txBuff.length)
    (hfuel : 2 ≤ fuel) :
    st.sendWait env txDelay timeout headNext fuel 0 0 =
      some (true, 1, st.onSend) := by
  obtain ⟨f, rfl⟩ : ∃ f, fuel = f + 2 := ⟨fuel - 2, by omega⟩
  have hne : (st.txTail + 1) % st.txBuff.length ≠ st.txTail := by
    have h1 : (st.txTail + 1) % st.txBuff.length < st.txBuff.length :=
      Nat.mod_lt _ (by omega)
    rcases Nat.lt_or_ge (st.txTail + 1) st.txBuff.length with h | h
    · rw [Nat.mod_eq_of_lt h]
      omega
    · have h2 : st.txTail + 1 = st.txBuff.length := by omega
      rw [h2, Nat.mod_self]
      omega
  have hstep1 : st.sendWait env txDelay timeout headNext (f + 2) 0 0 =
      st.onSend.sendWait env txDelay timeout headNext (f + 1) 1 0 := by
    simp [Usart.sendWait, Usart.isrStep, hs 0, hu0, hfull]
  have htail : st.onSend.txTail = (st.txTail + 1) % st.txBuff.length := by
    simp only [Usart.onSend]
    split <;> rfl
  have hstep2 : st.onSend.sendWait env txDelay timeout headNext (f + 1) 1 0 =
      some (true, 1, st.onSend) := by
    have hcond : headNext ≠ st.onSend.txTail := by
      rw [htail, hfull]
      exact fun h => hne h.symm
    simp [Usart.sendWait, Usart.isrStep, hs 1, hcond]
  rw [hstep1, hstep2]

/-- C3.  `Usart::send(ch, drain, timeout)` invoked while the transmit
ring is full busy-waits for space, manually invoking the transmit
handler itself whenever global interrupts are disabled and the hardware
data register is empty: (1) when no space ever frees (data register
never empty) and `timeout > 0`, it returns the transmit-timeout error
`-1` with the state unchanged once the accumulated waiting reaches
`timeout`; (2) under the same conditions with `timeout = 0` it waits
indefinitely (never returns, whatever the fuel); (3) when interrupts are
disabled and the data register is empty, the manual pump frees a slot
and the byte is appended to the ring (stored at the freed `head_next`
slot with `tx_head` advanced and UDRIE enabled) with `0` returned. -/
theorem send_full_ring_semantics :
    (∀ (env : Nat → HwEnv) (st : Usart) (ch txDelay timeout fuel : Nat),
       (∀ j, (env j).udre = false) →
       (st.txHead + 1) % st.txBuff.length = st.txTail →
       0 < timeout → timeout ≤ fuel * txDelay →
       st.sendCh env txDelay fuel ch false timeout = some (-1, st)) ∧
    (∀ (env : Nat → HwEnv) (st : Usart) (ch txDelay fuel : Nat),
       (∀ j, (env j).udre = false) →
       (st.txHead + 1) % st.txBuff.length = st.txTail →
       st.sendCh env txDelay fuel ch false 0 = none) ∧
    (∀ (env : Nat → HwEnv) (st : Usart) (ch txDelay timeout fuel : Nat),
       (∀ j, (env j).sregI = false) →
       (env 0).udre = true →
       (st.txHead + 1) % st.txBuff.length = st.txTail →
       st.txTail < st.txBuff.length → 2 ≤ st.txBuff.length → 2 ≤ fuel →
       st.sendCh env txDelay fuel ch false timeout =
         some (0, { st.onSend with
                      txBuff := st.txBuff.set st.txTail (ch % 256),
                      txHead := st.txTail,
                      udrie := true })) := by
  refine ⟨?_, ?_, ?_⟩
  · intro env st ch txDelay timeout fuel hu hfull htpos hbound
    obtain ⟨k, hk⟩ := sendWait_stuck env txDelay timeout
      ((st.txHead + 1) % st.txBuff.length) st hu hfull htpos fuel 0 0 htpos
      (by omega)
    simp only [Usart.sendCh]
    rw [hk]
  · intro env st ch txDelay fuel hu hfull
    simp only [Usart.sendCh]
    rw [sendWait_stuck_zero env txDelay _ st hu hfull fuel 0 0]
  · intro env st ch txDelay timeout fuel hs hu0 hfull ht hn hfuel
    simp only [Usart.sendCh]
    rw [sendWait_pump env txDelay timeout _ fuel st hs hu0 hfull ht hn hfuel]
    simp [onSend_txBuff]
    exact ⟨hfull, by rw [hfull]⟩

/-- C3 witness: on a concrete full ring with interrupts disabled,
`send` times out with `-1` when UDRE never sets (timeout 12, delay 5),
loops forever when `timeout = 0`, and succeeds via the manual pump when
UDRE is set, storing the byte `99` at the freed slot. -/
theorem send_full_ring_semantics_witness :
    ust8full.sendCh envStuck 5 100 99 false 12 = some (-1, ust8full) ∧
    ust8full.sendCh envStuck 5 37 99 false 0 = none ∧
    ust8full.sendCh envPump 5 50 99 false 12 =
      some (0, { ust8full.onSend with
                   txBuff := ust8full.txBuff.set 0 99,
                   txHead := 0,
                   udrie := true }) :=
  ⟨send_full_ring_semantics.1 envStuck ust8full 99 5 12 100 (fun _ => rfl)
     (by decide) (by norm_num) (by norm_num),
   send_full_ring_semantics.2.1 envStuck ust8full 99 5 37 (fun _ => rfl)
     (by decide),
   send_full_ring_semantics.2.2 envPump ust8full 99 5 12 50 (fun _ => rfl) rfl
     (by decide) (by decide) (by decide) (by norm_num)⟩

/-- C1.  The claim states that the bytes written to the hardware data
register are exactly the enqueued bytes in FIFO order, so that
`send("hello", 5, drain=true)` on a freshly opened port transmits
`'h','e','l','l','o'`.  On the code this fails: `send` stores each byte
at slot `(tx_head + 1) % N` and then advances `tx_head` to that slot,
while `onSend` pops the byte at slot `tx_tail` — one slot behind the
data.  On a fresh port whose ring memory is zero-initialised, sending
the five bytes of `"hello"` with `drain = true` makes the handler write
the stale byte `0` from slot 0 followed by `'h','e','l','l'`; the final
`'o'` is never transmitted, so a cooperative peer reading five bytes
cannot receive `"hello"`.  (The receive ring and `recv()` use matching
conventions, so the defect is specific to the transmit path: `send`
writing slot `head_next` instead of slot `head` contradicts the handler
it is documented to feed.) -/
theorem send_hello_transmits_stale_byte :
    ((ust8.sendBuf envAll 1 0 32 helloBytes true).map fun p => p.2.sent) =
      some [0, 104, 101, 108, 108] ∧
    ((ust8.sendBuf envAll 1 0 32 helloBytes true).map fun p => p.2.sent) ≠
      some helloBytes := by
  constructor
  · rfl
  · decide

/-- C8 witness: `write<uint16_t>(0x50, 0, 258)` on a little-endian host
delegates the big-endian wire image `[1, 2]`, and a successful
`read<uint16_t>` stores the underlying read's bytes in the scratch buffer
and decodes the value from it. -/
theorem typed_wrappers_wire_conversion_witness :
    (i2cDev0.writeT wrOk true 2 80 0 258).2.2 = [1, 2] ∧
    (i2cDev0.readT rdOk 2 80 0 42).2.2.buff = (rdOk 80 0 2).2 ∧
    (i2cDev0.readT rdOk 2 80 0 42).2.1 =
      decodeFixedIntBE ((i2cDev0.readT rdOk 2 80 0 42).2.2.buff.take 2) :=
  ⟨((typed_wrappers_wire_conversion wrOk rdOk true 2 80 0 258 42 i2cDev0).2.1).trans
     (by decide),
   (typed_wrappers_wire_conversion wrOk rdOk true 2 80 0 258 42 i2cDev0).2.2.2.2.2.1,
   (typed_wrappers_wire_conversion wrOk rdOk true 2 80 0 258 42 i2cDev0).2.2.2.2.2.2
     (by decide)⟩

end Devices
